import Mathlib

/-!
Verification of the CAMS mutual-fund statement parser
(`mutual_fund_parser.py`) against its natural-language specification.

The Python source is shallowly embedded: every definition below is a direct
translation of a function or code block of `MutualFundDataParser`.  pandas
DataFrames are modelled as a list of column labels plus a rectangular list of
rows of cells; a cell is a string, a floating-point number, or a missing value
(NaN / pd.NA).  Python floats are modelled by the decimal value printed by
their shortest round-trip repr, stored as a mantissa/exponent pair, which is
exact for every numeric literal appearing in this development.  Exceptions
are modelled by `Option`/flags exactly where the source catches them.
-/

/-! ## Basic character and string helpers (Python semantics) -/

/-- Whitespace characters that can occur inside one extracted line of PDF
text (Python `\s` restricted to space and tab; newlines are line separators
and never reach the tokenizer). -/
def isWsCh (c : Char) : Bool := c = ' ' || c = '\t'

/-- Digit test for ASCII characters, as used by the Python regexes. -/
def isDigCh (c : Char) : Bool := c.isDigit

/-- `str.strip()` on the character list: drop whitespace at both ends. -/
def stripChars (l : List Char) : List Char :=
  ((l.dropWhile isWsCh).reverse.dropWhile isWsCh).reverse

/-- Python `str.strip()`. -/
def pyStrip (s : String) : String := String.mk (stripChars s.toList)

/-- Python `str.lower()` (ASCII case folding suffices for this source). -/
def lowerStr (s : String) : String := String.mk (s.toList.map Char.toLower)

/-- One step of Python `str.title()`: the boolean says whether the previous
character was cased (alphabetic). -/
def titleChars : Bool → List Char → List Char
  | _, [] => []
  | prev, c :: cs =>
    if c.isAlpha then (if prev then c.toLower else c.toUpper) :: titleChars true cs
    else c :: titleChars false cs

/-- Python `str.title()`. -/
def pyTitle (s : String) : String := String.mk (titleChars false s.toList)

/-- `l2` starts with `l1`. -/
def leadsWith : List Char → List Char → Bool
  | [], _ => true
  | _ :: _, [] => false
  | a :: as_, b :: bs => a = b && leadsWith as_ bs

/-- `n` occurs as a contiguous sublist of `h` (Python `n in h` on strings). -/
def subChars : List Char → List Char → Bool
  | n, [] => n.isEmpty
  | n, h@(_ :: t) => leadsWith n h || subChars n t

/-- Python substring containment `needle in hay`. -/
def subStr (needle hay : String) : Bool := subChars needle.toList hay.toList

/-- Join a list of strings with single spaces (Python `' '.join`). -/
def joinSp : List String → String
  | [] => ""
  | x :: xs => xs.foldl (fun a b => a ++ " " ++ b) x

/-- Split a character list on runs of whitespace, dropping the runs
(Python `str.split()` with no argument). -/
def wordsGo : List Char → List Char → List (List Char)
  | acc, [] => if acc.isEmpty then [] else [acc.reverse]
  | acc, c :: cs =>
    if isWsCh c then
      if acc.isEmpty then wordsGo [] cs else acc.reverse :: wordsGo [] cs
    else wordsGo (c :: acc) cs

/-- `' '.join(str(x).split())`: collapse internal whitespace runs. -/
def normSpaces (s : String) : String :=
  joinSp ((wordsGo [] s.toList).map String.mk)

/-!
`re.split(r'\s{2,}|\t|│|┃', s)`: a single tab or box-drawing bar separates,
and so does any run of at least two whitespace characters; a single space
does not.  `splitGo` scans the characters; the boolean is true while inside
a whitespace separator run.  Empty pieces produced by adjacent or leading or
trailing separators are kept, exactly as `re.split` keeps them (the callers
strip and filter them away).
-/

/-- A character that separates on its own. -/
def isHardSep (c : Char) : Bool := c = '\t' || c = '│' || c = '┃'

/-- Scanner for `re.split(r'\s{2,}|\t|│|┃', ·)`. -/
def splitGo : Bool → List Char → List Char → List String
  | _, acc, [] => [String.mk acc.reverse]
  | true, acc, c :: cs =>
    if isWsCh c then splitGo true acc cs
    else if isHardSep c then String.mk acc.reverse :: splitGo false [] cs
    else splitGo false (c :: acc) cs
  | false, acc, [c] =>
    if isHardSep c then [String.mk acc.reverse, ""]
    else [String.mk (c :: acc).reverse]
  | false, acc, c :: c2 :: cs2 =>
    if isHardSep c then String.mk acc.reverse :: splitGo false [] (c2 :: cs2)
    else if c = ' ' then
      if isWsCh c2 then String.mk acc.reverse :: splitGo true [] cs2
      else splitGo false (' ' :: acc) (c2 :: cs2)
    else splitGo false (c :: acc) (c2 :: cs2)

/-- `re.split(r'\s{2,}|\t|│|┃', s)`. -/
def pySplitSeps (s : String) : List String := splitGo false [] s.toList

/-! ## Canonical columns and header patterns (`__init__`) -/

/-- `self.columns`: the thirteen canonical display labels. -/
def canonicalCols : List String :=
  ["Scheme Name", "ISIN", "Folio No.", "ARN Code", "Closing Units", "NAV",
   "Cost", "Market Value", "TER Regular", "TER Direct", "Commission",
   "Profit/Loss", "Profit/Loss %"]

/-- `self.column_patterns`: the ordered dictionary of header patterns.
Patterns are tested by Python substring containment against the lowercased
header token (so `"INF"` can never match, and the regex-looking entries only
match their literal text). -/
def columnPatterns : List (String × List String) :=
  [("scheme", ["scheme", "fund", "portfolio"]),
   ("isin", ["isin", "INF"]),
   ("folio", ["folio"]),
   ("arn", ["arn"]),
   ("units", ["closing", "bal", "units"]),
   ("nav", ["nav"]),
   ("cost", ["cumulative", "amount invested", "cost"]),
   ("value", ["valuation", "market"]),
   ("ter_reg", ["expense ratio.*regular", "ter.*regular"]),
   ("ter_dir", ["expense ratio.*direct", "ter.*direct"]),
   ("commission", ["commission", "distributors"]),
   ("profit_loss", ["profit/loss", "unrealised", "pl"]),
   ("profit_loss_pct", ["profit.*%", "loss.*%", "return"])]

/-- The `for col_name, patterns in self.column_patterns.items()` loop with
`break`: the first dictionary entry one of whose patterns is contained in
the (lowercased) header wins; only whether some entry matched is ever used
afterwards, since the appended name is positional. -/
def firstMatchEntry (t : String) : Option String :=
  (columnPatterns.find? (fun e => e.2.any (fun p => subStr p t))).map (·.1)

/-- `_clean_headers`, one header at a time.  `acc` is `clean_headers` built
so far, in order.  A falsy header (`None` or `""`) is skipped; a matched
header is replaced by `self.columns[len(clean_headers)]` — positional, the
matched entry is discarded; an unmatched header is kept title-cased.
`self.columns[len(clean_headers)]` raises `IndexError` when more than
thirteen headers have matched; that exception is modelled by `none` (the
callers catch it and abandon the whole strategy). -/
def cleanHeadersGo : List String → List (Option String) → Option (List String)
  | acc, [] => some acc
  | acc, h :: hs =>
    match h with
    | none => cleanHeadersGo acc hs
    | some hv =>
      if hv = "" then cleanHeadersGo acc hs
      else
        let t := lowerStr (pyStrip hv)
        match firstMatchEntry t with
        | some _ =>
          if acc.length < canonicalCols.length then
            cleanHeadersGo (acc ++ [canonicalCols.getD acc.length ""]) hs
          else none
        | none => cleanHeadersGo (acc ++ [pyTitle t]) hs

/-- `_clean_headers(headers)`. -/
def clean_headers (hs : List (Option String)) : Option (List String) :=
  cleanHeadersGo [] hs

/-- `_extract_columns(header_line)`: strip the line, split on the separator
regex, strip and drop empty tokens, then standardize via `_clean_headers`. -/
def extract_columns (headerLine : String) : Option (List String) :=
  let columns := pySplitSeps (pyStrip headerLine)
  let columns := (columns.map pyStrip).filter (fun c => c ≠ "")
  clean_headers (columns.map some)

/-! ## Row segmentation and field merging (`_parse_data_row`) -/

/-- `re.match(r'^(INF|[A-Z0-9]{10})', field)`: the field starts with the
literal `INF`, or its first ten characters are all uppercase letters or
digits. -/
def reIsinLike (f : String) : Bool :=
  leadsWith "INF".toList f.toList ||
    (10 ≤ f.length && (f.toList.take 10).all (fun c => c.isUpper || c.isDigit))

/-- `re.match(r'^[\d,.]+$', field)`: nonempty, only digits, commas, dots. -/
def reNumericLike (f : String) : Bool :=
  !f.isEmpty && f.toList.all (fun c => c.isDigit || c = ',' || c = '.')

/-- The merging loop of `_parse_data_row`: `cur` is the running `current`
list of free-text tokens.  A token recognized as ISIN-shaped or numeric
flushes `current` (joined by single spaces) and stays a field of its own;
any other token is appended to `current`. -/
def mergeGo : List String → List String → List String
  | cur, [] => if cur.isEmpty then [] else [joinSp cur]
  | cur, f :: fs =>
    if reIsinLike f || reNumericLike f then
      (if cur.isEmpty then [] else [joinSp cur]) ++ f :: mergeGo [] fs
    else mergeGo (cur ++ [f]) fs

/-- The field-merging pass applied when the token count exceeds the
canonical column count. -/
def mergeRow (fields : List String) : List String := mergeGo [] fields

/-- The tokenization in `_parse_data_row`: split the stripped line on the
separator regex, strip each field and drop the empty ones. -/
def rowFields (line : String) : List String :=
  ((pySplitSeps (pyStrip line)).map pyStrip).filter (fun f => f ≠ "")

/-- `_parse_data_row(line)`.  The Python function returns `None` when no
fields survive; that is modelled by the empty list (the only falsy list),
which every caller treats identically. -/
def parse_data_row (line : String) : List String :=
  let fields := rowFields line
  if fields.isEmpty then []
  else if canonicalCols.length < fields.length then mergeRow fields
  else fields

/-! ## Cells and DataFrames -/

/-- One pandas cell: a string, a float (modelled by the decimal value of its
shortest round-trip repr, as mantissa `m` and decimal exponent `e`, value
`m / 10^e`, with `e` minimal), or a missing value (NaN / pd.NA). -/
inductive Cell where
  | s (v : String)
  | num (m : Int) (e : Nat)
  | na
deriving DecidableEq, Repr

/-- A pandas DataFrame: column labels plus rows of cells.  All DataFrames
built by this source are rectangular (every row as long as `cols`). -/
structure DF where
  cols : List String
  rows : List (List Cell)
deriving DecidableEq, Repr

/-- `pd.DataFrame()` with no data. -/
def DF.emptyDF : DF := ⟨[], []⟩

/-- `df.empty`: some axis has length zero. -/
def DF.isEmptyDF (df : DF) : Bool := df.rows.isEmpty || df.cols.isEmpty

/-! ## Decimal rendering and parsing of Python floats -/

/-- Decimal digit character. -/
def digitChar (d : Nat) : Char := Char.ofNat (48 + d)

/-- Decimal digits of `n`, most significant first (fuelled recursion). -/
def natDigitsAux : Nat → Nat → List Char
  | 0, _ => []
  | fuel + 1, n => if n = 0 then [] else natDigitsAux fuel (n / 10) ++ [digitChar (n % 10)]

/-- Decimal string of a natural number. -/
def natStr (n : Nat) : String :=
  if n = 0 then "0" else String.mk (natDigitsAux (n + 1) n)

/-- `str(x)` for the Python float modelled by `m / 10^e` (with `e` minimal):
CPython prints the shortest round-trip decimal, which for every such value in
this development is the decimal itself, with `.0` appended for integers. -/
def numToStr (m : Int) (e : Nat) : String :=
  let sign := if m < 0 then "-" else ""
  let ds := natStr m.natAbs
  if e = 0 then sign ++ ds ++ ".0"
  else
    let l := ds.toList
    let l := List.replicate (e + 1 - l.length) '0' ++ l
    sign ++ String.mk (l.take (l.length - e)) ++ "." ++ String.mk (l.drop (l.length - e))

/-- Numeric value of a digit list. -/
def natOfDigits (l : List Char) : Nat :=
  l.foldl (fun a c => a * 10 + (c.toNat - 48)) 0

/-- Strip trailing zeros of the fractional part, making the exponent
minimal (the float value is unchanged; this is what makes `numToStr` the
shortest repr). -/
def normDec : Nat → Int → Nat → Int × Nat
  | 0, m, e => (m, e)
  | fuel + 1, m, e =>
    if e ≠ 0 && m % 10 = 0 then normDec fuel (m / 10) (e - 1) else (m, e)

/-- `pd.to_numeric(s, errors='coerce')` on one already-comma-and-percent-free
string: parse an optionally signed decimal literal; failure is `none` (NaN).
Accepted forms mirror Python `float`: `123`, `123.`, `.5`, `-1.25`. -/
def parsePyFloat (s : String) : Option (Int × Nat) :=
  let (neg, l) :=
    match s.toList with
    | '-' :: t => (true, t)
    | t => (false, t)
  let intPart := l.takeWhile isDigCh
  let rest := l.drop intPart.length
  match rest with
  | [] =>
    if intPart.isEmpty then none
    else some (if neg then -(natOfDigits intPart : Int) else (natOfDigits intPart : Int), 0)
  | '.' :: frac =>
    if frac.all isDigCh && !(intPart.isEmpty && frac.isEmpty) then
      let m : Int := natOfDigits (intPart ++ frac)
      let m := if neg then -m else m
      some (normDec frac.length m frac.length)
    else none
  | _ => none

/-! ## The numeric extraction regexes of `_clean_dataframe`

Each canonical numeric column carries a single pattern; `re.search` is
implemented per pattern with Python's leftmost-then-greedy-with-backtracking
semantics: starting positions are tried left to right, and at a given start
the `[\d,.]+` part gives back as little as possible, so the chosen dot is the
rightmost feasible one inside the maximal character-class run. -/

/-- Character class `[\d,.]`. -/
def isNumC (c : Char) : Bool := c.isDigit || c = ',' || c = '.'

/-- Character class `[\d.]`. -/
def isTerC (c : Char) : Bool := c.isDigit || c = '.'

/-- Indices `j ≥ 1` of dots inside a run. -/
def dotIdxs (run : List Char) : List Nat :=
  (List.range run.length).filter (fun j => decide (1 ≤ j) && (run.getD j ' ' = '.'))

/-- `re.search(r'[\d,.]+', text)`: the maximal class run at the leftmost
position where one starts. -/
def exUnits : List Char → Option (List Char)
  | [] => none
  | c :: cs => if isNumC c then some (c :: cs.takeWhile isNumC) else exUnits cs

/-- Match of `[\d,.]+\.\d*` anchored at the start of `cs`, if any. -/
def exNavAt (cs : List Char) : Option (List Char) :=
  let run := cs.takeWhile isNumC
  match (dotIdxs run).getLast? with
  | none => none
  | some j => some (run.take j ++ '.' :: (run.drop (j + 1)).takeWhile isDigCh)

/-- `re.search(r'[\d,.]+\.\d*', text)`. -/
def exNav : List Char → Option (List Char)
  | [] => none
  | c :: cs =>
    match exNavAt (c :: cs) with
    | some m => some m
    | none => exNav cs

/-- Match of `[\d,.]+\.\d{2}` anchored at the start of `cs`, if any: the
rightmost dot of the class run followed by two digits, keeping exactly two
digits after it. -/
def exMoneyAt (cs : List Char) : Option (List Char) :=
  let run := cs.takeWhile isNumC
  match ((dotIdxs run).filter
      (fun j => isDigCh (run.getD (j + 1) ' ') && isDigCh (run.getD (j + 2) ' '))).getLast? with
  | none => none
  | some j => some (run.take (j + 3))

/-- `re.search(r'[\d,.]+\.\d{2}', text)`. -/
def exMoney : List Char → Option (List Char)
  | [] => none
  | c :: cs =>
    match exMoneyAt (c :: cs) with
    | some m => some m
    | none => exMoney cs

/-- `re.search(r'[\d.]+%?', text)`. -/
def exTer : List Char → Option (List Char)
  | [] => none
  | c :: cs =>
    if isTerC c then
      let run := c :: cs.takeWhile isTerC
      let rest := cs.dropWhile isTerC
      some (if rest.headD ' ' = '%' then run ++ ['%'] else run)
    else exTer cs

/-- `re.search(r'-?[\d,.]+\.\d{2}', text)`. -/
def exPl : List Char → Option (List Char)
  | [] => none
  | c :: cs =>
    if c = '-' then
      match exMoneyAt cs with
      | some m => some ('-' :: m)
      | none => exPl cs
    else
      match exMoneyAt (c :: cs) with
      | some m => some m
      | none => exPl cs

/-- `re.search(r'-?[\d.]+', text)`. -/
def exPlp : List Char → Option (List Char)
  | [] => none
  | c :: cs =>
    if c = '-' then
      match cs.takeWhile isTerC with
      | [] => exPlp cs
      | r :: rs => some ('-' :: r :: rs)
    else if isTerC c then some (c :: cs.takeWhile isTerC)
    else exPlp cs

/-- The six distinct patterns of `numeric_patterns`. -/
inductive NumPat where
  | units | nav | money | ter | plMoney | plPct
deriving DecidableEq, Repr

/-- Dispatch `re.search` per pattern. -/
def runPat : NumPat → List Char → Option (List Char)
  | .units => exUnits
  | .nav => exNav
  | .money => exMoney
  | .ter => exTer
  | .plMoney => exPl
  | .plPct => exPlp

/-- `numeric_patterns`: column label to its (single) pattern. -/
def numericPatternOf (col : String) : Option NumPat :=
  if col = "Closing Units" then some .units
  else if col = "NAV" then some .nav
  else if col = "Cost" then some .money
  else if col = "Market Value" then some .money
  else if col = "TER Regular" then some .ter
  else if col = "TER Direct" then some .ter
  else if col = "Commission" then some .money
  else if col = "Profit/Loss" then some .plMoney
  else if col = "Profit/Loss %" then some .plPct
  else none

/-- `extract_numeric(text, patterns)`: `None` for missing or empty text,
otherwise the first regex match of the stripped text. -/
def extractNumeric (p : NumPat) (v : String) : Option String :=
  if v = "" then none
  else (runPat p (pyStrip v).toList).map String.mk

/-! ## Normalization (`_clean_dataframe`) -/

/-- `astype(str)` on one cell: strings stay, floats print via their shortest
repr, NaN / pd.NA prints as `"nan"`. -/
def cellToStr : Cell → String
  | .s v => v
  | .num m e => numToStr m e
  | .na => "nan"

/-- One cell of `df.astype(str).replace('', NA).replace('None', NA)
.replace('nan', NA)`. -/
def abCell (c : Cell) : Cell :=
  let v := cellToStr c
  if v = "" || v = "None" || v = "nan" then .na else .s v

/-- Stage (a)+(b): coerce to text and blank out the absent markers. -/
def stageAB (df : DF) : DF := ⟨df.cols, df.rows.map (fun r => r.map abCell)⟩

/-- `df.dropna(how='all')`: drop rows whose cells are all missing. -/
def dropNaRows (df : DF) : DF :=
  ⟨df.cols, df.rows.filter (fun r => !r.all (· = Cell.na))⟩

/-- `df.dropna(axis=1, how='all')`: drop columns with no non-missing value
(with zero rows every column counts as all-missing, as in pandas). -/
def dropNaCols (df : DF) : DF :=
  let keep := (List.range df.cols.length).filter
    (fun j => df.rows.any (fun r => !(r.getD j Cell.na = Cell.na)))
  ⟨keep.map (fun j => df.cols.getD j ""), df.rows.map (fun r => keep.map (fun j => r.getD j Cell.na))⟩

/-- `str(cell)` as seen by the row filter: post-stage-(b) cells are strings
or pd.NA, and `str(pd.NA)` is `"<NA>"`. -/
def strTok : Cell → String
  | .s v => v
  | .num m e => numToStr m e
  | .na => "<NA>"

/-- One row passes the noise filter iff some cell's string contains the
literal `INF`. -/
def rowHasINF (r : List Cell) : Bool := r.any (fun c => subStr "INF" (strTok c))

/-- `df = df[df.apply(lambda row: any('INF' in str(cell) for cell in row), axis=1)]`. -/
def filterINF (df : DF) : DF := ⟨df.cols, df.rows.filter rowHasINF⟩

/-- Stages (a)–(d) of `_clean_dataframe`: text coercion, absence markers,
empty-row and empty-column drop, then the `INF` noise filter. -/
def preTable (df : DF) : DF := filterINF (dropNaCols (dropNaRows (stageAB df)))

/-- `if len(df.columns) >= 10: df.columns = self.columns[:len(df.columns)]`.
Assigning 13 labels to more than 13 columns raises `ValueError`, modelled by
`none` (the callers catch it and abandon the strategy). -/
def renameCols (cols : List String) : Option (List String) :=
  if 10 ≤ cols.length then
    if cols.length ≤ canonicalCols.length then some (canonicalCols.take cols.length)
    else none
  else some cols

/-- Scheme-name cleanup of one cell:
`lambda x: ' '.join(str(x).split())` (on pd.NA this yields the string
`"<NA>"`). -/
def schemeFix (c : Cell) : Cell := .s (normSpaces (strTok c))

/-- Numeric conversion of one cell: `extract_numeric`, then
`.str.replace(',', '').str.replace('%', '')`, then
`pd.to_numeric(·, errors='coerce')`. -/
def numFix (p : NumPat) (c : Cell) : Cell :=
  match c with
  | .na => .na
  | c =>
    match extractNumeric p (cellToStr c) with
    | none => .na
    | some m =>
      match parsePyFloat (String.mk (m.toList.filter (fun ch => ch ≠ ',' && ch ≠ '%'))) with
      | none => .na
      | some (mi, ei) => .num mi ei

/-- Per-column cell transformation of stages (e)–(f), selected by the column
label: the scheme-name whitespace collapse, or the numeric extraction for the
labels in `numeric_patterns`, or nothing. -/
def colFix (name : String) (c : Cell) : Cell :=
  if name = "Scheme Name" then schemeFix c
  else
    match numericPatternOf name with
    | some p => numFix p c
    | none => c

/-- Stages (e)–(f) applied over a whole table (rows are rectangular in every
actual use, so pairing each row with the labels is the per-column update the
source performs). -/
def postTable (df : DF) : DF :=
  ⟨df.cols, df.rows.map (fun r => (df.cols.zip r).map (fun p => colFix p.1 p.2))⟩

/-- `_clean_dataframe(df)`.  `none` models both the explicit `return None`
on an empty input and the `ValueError` of the rename on more than thirteen
columns. -/
def clean_dataframe (df : DF) : Option DF :=
  if df.isEmptyDF then none
  else
    match renameCols (preTable df).cols with
    | none => none
    | some cs => some (postTable ⟨cs, (preTable df).rows⟩)

/-! ## Strategy layer: pdfplumber, tabula, PyPDF2, and the controller -/

/-- The sentinel phrase that opens the holdings section. -/
def sectionMarker : String := "MUTUAL FUND UNITS HELD AS ON"

/-- The document-scoped mutable state of a parsing strategy: the resolved
`headers` (`[]` is the only falsy list and models the initial `None`), the
accumulated data rows, and a flag recording that an exception escaped (the
enclosing `try` of the strategy then yields `None`). -/
structure PState where
  headers : List String
  data : List (List String)
  failed : Bool
deriving DecidableEq, Repr

/-- The starting state of a strategy. -/
def PState.init : PState := ⟨[], [], false⟩

/-- One line of the pdfplumber text pass (`for line in lines`): the section
marker flips the in-section flag; in section, an unresolved header is taken
from the first line containing `Scheme` or `ISIN`; afterwards every line
containing `INF` or `ARN-` is segmented and kept when it has at least five
fields. -/
def plumberLineStep (st : PState) (inSec : Bool) (line : String) : PState × Bool :=
  if st.failed then (st, inSec)
  else if subStr sectionMarker line then (st, true)
  else if inSec then
    if st.headers.isEmpty && (subStr "Scheme" line || subStr "ISIN" line) then
      match extract_columns line with
      | none => ({ st with failed := true }, inSec)
      | some hs => ({ st with headers := hs }, inSec)
    else if !st.headers.isEmpty && (subStr "INF" line || subStr "ARN-" line) then
      let rd := parse_data_row line
      if 5 ≤ rd.length then ({ st with data := st.data ++ [rd] }, inSec)
      else (st, inSec)
    else (st, inSec)
  else (st, inSec)

/-- `text.split('\n')` on the character list (Python `str.split` with an
explicit separator keeps empty pieces; the empty text yields `[""]`). -/
def linesGo : List Char → List Char → List String
  | acc, [] => [String.mk acc.reverse]
  | acc, c :: cs =>
    if c = '\n' then String.mk acc.reverse :: linesGo [] cs else linesGo (c :: acc) cs

/-- `text.split('\n')`. -/
def linesOf (s : String) : List String := linesGo [] s.toList

/-- The text pass over one page (`in_holdings_section` starts false on each
page). -/
def plumberTextPage (st : PState) (lines : List String) : PState × Bool :=
  lines.foldl (fun p line => plumberLineStep p.1 p.2 line) (st, false)

/-- A pdfplumber table row: cells may be `None`. -/
def rowStrOf (row : List (Option String)) : String :=
  joinSp ((row.filterMap id).filter (fun v => v ≠ ""))

/-- One row of the pdfplumber table pass, mirroring the text pass but with
`_clean_headers` on the raw cells and the `[str(cell).strip() for cell in
row if cell]` segmentation. -/
def tableRowStep (st : PState) (inSec : Bool) (row : List (Option String)) : PState × Bool :=
  if st.failed then (st, inSec)
  else
    let rs := rowStrOf row
    if subStr sectionMarker rs then (st, true)
    else if inSec then
      if st.headers.isEmpty && (subStr "Scheme" rs || subStr "ISIN" rs) then
        match clean_headers row with
        | none => ({ st with failed := true }, inSec)
        | some hs => ({ st with headers := hs }, inSec)
      else if !st.headers.isEmpty && (subStr "INF" rs || subStr "ARN-" rs) then
        let rd := ((row.filterMap id).filter (fun v => v ≠ "")).map pyStrip
        if !rd.isEmpty && 5 ≤ rd.length then ({ st with data := st.data ++ [rd] }, inSec)
        else (st, inSec)
      else (st, inSec)
    else (st, inSec)

/-- The table pass of one page; it continues with the in-section flag left
by the page's text pass.  A raised `extract_tables` is caught and logged in
the source; it is modelled by an empty table list. -/
def plumberTablePage (st : PState) (inSec : Bool)
    (tables : List (List (List (Option String)))) : PState × Bool :=
  tables.foldl (fun p table => table.foldl (fun q row => tableRowStep q.1 q.2 row) p) (st, inSec)

/-- One page as pdfplumber exposes it: the extracted text (`""` models an
empty or `None` extraction, which skips the page) and the extracted
tables. -/
structure PlumberPage where
  text : String
  tables : List (List (List (Option String)))
deriving Repr

/-- Processing of one page: the text pass, then — only when no data row has
been found so far — the table pass.  (The third loop of the source, lines
136–143, only rewrites the local in-section flag and never touches `data`
or `headers`, so it has no observable effect.) -/
def plumberPage (st : PState) (pg : PlumberPage) : PState :=
  if pg.text = "" then st
  else
    let p := plumberTextPage st (linesOf pg.text)
    if p.1.data.isEmpty then (plumberTablePage p.1 p.2 pg.tables).1 else p.1

/-- `pd.DataFrame(data)` for a list of string rows: integer column labels
(rendered as their digit strings, which never collide with any label the
source compares against), shorter rows padded with NaN. -/
def mkDF (data : List (List String)) : DF :=
  let n := data.foldl (fun m r => max m r.length) 0
  ⟨(List.range n).map (fun i => natStr i),
   data.map (fun r => r.map Cell.s ++ List.replicate (n - r.length) Cell.na)⟩

/-- `if len(df.columns) == len(headers): df.columns = headers`. -/
def applyHeaders (df : DF) (hs : List String) : DF :=
  if df.cols.length = hs.length then ⟨hs, df.rows⟩ else df

/-- What each extraction backend managed to read from the document.  A
`none` view models the backend raising while opening or reading (wrong
password, corrupt file, incompatibility); each strategy catches every
exception and turns it into `None`. -/
structure Doc where
  plumberPages : Option (List PlumberPage)
  tabulaTables : Option (List DF)
  pypdfText : Option String

/-- `_parse_with_pdfplumber`. -/
def parseWithPdfplumber (d : Doc) : Option DF :=
  match d.plumberPages with
  | none => none
  | some pgs =>
    let st := pgs.foldl plumberPage PState.init
    if st.failed then none
    else if st.data.isEmpty then none
    else clean_dataframe (applyHeaders (mkDF st.data) st.headers)

/-- `pd.concat(tables, ignore_index=True)`: outer union of the column
labels in order of first appearance, missing cells NaN. -/
def pdConcat (ts : List DF) : DF :=
  let allCols := (ts.foldl (fun acc t => acc ++ t.cols) []).dedup
  ⟨allCols,
   ts.foldl (fun acc t =>
     acc ++ t.rows.map (fun r =>
       allCols.map (fun c =>
         match t.cols.indexOf? c with
         | none => Cell.na
         | some i => r.getD i Cell.na))) []⟩

/-- `_parse_with_tabula`: the external tabula call either raises (`none`
view) or yields a list of tables; an empty list falls through to the
implicit `return None`, otherwise the concatenation is returned without
normalization. -/
def parseWithTabula (d : Doc) : Option DF :=
  match d.tabulaTables with
  | none => none
  | some [] => none
  | some ts => some (pdConcat ts)

/-- One line of the PyPDF2 text loop; identical to the pdfplumber text pass
except that the header trigger is case-insensitive
(`any(word in line.lower() for word in ['scheme', 'isin'])`). -/
def pypdfLineStep (st : PState) (inSec : Bool) (line : String) : PState × Bool :=
  if st.failed then (st, inSec)
  else if subStr sectionMarker line then (st, true)
  else if inSec then
    if st.headers.isEmpty
        && (subStr "scheme" (lowerStr line) || subStr "isin" (lowerStr line)) then
      match extract_columns line with
      | none => ({ st with failed := true }, inSec)
      | some hs => ({ st with headers := hs }, inSec)
    else if !st.headers.isEmpty && (subStr "INF" line || subStr "ARN-" line) then
      let rd := parse_data_row line
      if 5 ≤ rd.length then ({ st with data := st.data ++ [rd] }, inSec)
      else (st, inSec)
    else (st, inSec)
  else (st, inSec)

/-- `_parse_with_pypdf2`: one text buffer over all pages, one scan. -/
def parseWithPypdf2 (d : Doc) : Option DF :=
  match d.pypdfText with
  | none => none
  | some text =>
    let p := (linesOf text).foldl (fun p line => pypdfLineStep p.1 p.2 line)
      (PState.init, false)
    if p.1.failed then none
    else if p.1.data.isEmpty then none
    else clean_dataframe (applyHeaders (mkDF p.1.data) p.1.headers)

/-- `df is None or df.empty` on a strategy result. -/
def emptyOpt : Option DF → Bool
  | none => true
  | some df => df.isEmptyDF

/-- `parse_from_pdf`: pdfplumber first, tabula when that was `None` or
empty, PyPDF2 when tabula also was, and a fresh empty DataFrame when the
final result is `None`. -/
def parse_from_pdf (d : Doc) : DF :=
  let df1 := parseWithPdfplumber d
  let df2 := if emptyOpt df1 then parseWithTabula d else df1
  let df3 := if emptyOpt df2 then parseWithPypdf2 d else df2
  match df3 with
  | some df => df
  | none => DF.emptyDF

/-- The strategies in their fixed priority order. -/
inductive Strat where
  | plumber | tabula | pypdf
deriving DecidableEq, Repr

/-- Which strategies `parse_from_pdf` runs on a document, read off the same
conditionals: pdfplumber always, each later strategy exactly when every
earlier result was `None` or empty. -/
def attemptedStrategies (d : Doc) : List Strat :=
  let df1 := parseWithPdfplumber d
  let df2 := if emptyOpt df1 then parseWithTabula d else df1
  [.plumber] ++ (if emptyOpt df1 then [.tabula] else [])
    ++ (if emptyOpt df2 then [.pypdf] else [])

/-! ## Summary statistics (`get_summary_statistics`) -/

/-- Rational value of a numeric cell (missing counts as zero inside sums,
as pandas `sum` skips NaN). -/
def cellQ : Cell → ℚ
  | .num m e => (m : ℚ) / ((10 : ℚ) ^ e)
  | _ => 0

/-- A cell a float column may hold. -/
def isNumOrNa : Cell → Bool
  | .s _ => false
  | _ => true

/-- `df[col].sum()`: defined (a number) only when the column holds floats
and missing values; on string cells pandas concatenates instead and the
comparisons and the division in the source then raise `TypeError`, which is
modelled by `none`. -/
def colSumQ (df : DF) (name : String) : Option ℚ :=
  match df.cols.findIdx? (fun c => c = name) with
  | none => none
  | some j =>
    let cells := df.rows.map (fun r => r.getD j Cell.na)
    if cells.all isNumOrNa then some (cells.foldl (fun a c => a + cellQ c) 0) else none

/-- `next((col for col in df.columns if p col), None)`. -/
def findCol (p : String → Bool) (cols : List String) : Option String := cols.find? p

/-- The summary dictionary.  `total_valuation` and `total_profit_loss` are
`none` when the corresponding column held strings, in which case Python
stores the concatenated string in the dictionary without ever consuming it
numerically; `total_investment` is always numeric because a string there
raises before the dictionary is returned. -/
structure Summary where
  total_schemes : Nat
  total_valuation : Option ℚ
  total_investment : ℚ
  total_profit_loss : Option ℚ
  overall_return_percentage : ℚ
deriving DecidableEq, Repr

/-- A column total: literal `0` when no column label matched, otherwise the
numeric sum (`none` when the column held strings and pandas concatenated
instead of adding). -/
def totalOf (df : DF) (p : String → Bool) : Option ℚ :=
  match findCol p df.cols with
  | none => some 0
  | some name => colSumQ df name

/-- `get_summary_statistics(df)`: `{}` for a missing or empty frame is
`none`.  The comparison `summary['total_investment'] > 0` raises `TypeError`
on a string total (`none`), and so does the division when it runs on a
string profit total; the division runs only when the investment total is
strictly positive, and the percentage is the literal `0` otherwise. -/
def get_summary_statistics (df : DF) : Option Summary :=
  if df.isEmptyDF then none
  else
    let v := totalOf df (fun c => subStr "value" (lowerStr c) || subStr "valuation" (lowerStr c))
    let pl := totalOf df (fun c => subStr "profit" (lowerStr c) && !subStr "%" (lowerStr c))
    match totalOf df (fun c => subStr "invested" (lowerStr c) || subStr "cost" (lowerStr c)) with
    | none => none
    | some inv =>
      if 0 < inv then
        match pl with
        | none => none
        | some plq => some ⟨df.rows.length, v, inv, pl, plq / inv * 100⟩
      else some ⟨df.rows.length, v, inv, pl, 0⟩

/-! ## Spec-side notions used to compare the code with the claims -/

/-- Modelled from the spec: an "ISIN-pattern token" as the claims define it —
an alphanumeric code with a fixed 2-letter country-style prefix followed by
10 characters total (so twelve characters, the first two letters).  Used
only to compare the code's checks against the claimed ones. -/
def specIsinToken (t : String) : Bool :=
  t.length = 12 && (t.toList.take 2).all (fun c => c.isAlpha)
    && t.toList.all (fun c => c.isAlpha || c.isDigit)

/-- Modelled from the spec: an "ARN-pattern token" — the distributor-code
prefix followed by a hyphen. -/
def specArnToken (t : String) : Bool := subStr "ARN-" t

/-- Modelled from the spec: the controller described by the spec — try the
strategy results in priority order, halt at the first producing at least one
row; the last attempted result is kept even when empty, and a missing final
result is the fresh empty frame. -/
def specFirstNonEmpty : List (Option DF) → DF
  | [] => DF.emptyDF
  | [r] => r.getD DF.emptyDF
  | r :: r2 :: rs => if emptyOpt r then specFirstNonEmpty (r2 :: rs) else r.getD DF.emptyDF

/-- Modelled from the spec: how many strategies the spec's controller
attempts — each one until (and including) the first nonempty result. -/
def specAttemptCount : List (Option DF) → Nat
  | [] => 0
  | [_] => 1
  | r :: r2 :: rs => if emptyOpt r then 1 + specAttemptCount (r2 :: rs) else 1

/-! ## Claim C1 — access failure vs. empty result -/

/-- A document none of the three backends can open (wrong password or
corrupt file: every backend raises, each strategy catches). -/
def inaccessibleDoc : Doc := ⟨none, none, none⟩

/-- A perfectly readable document containing no holdings at all. -/
def noHoldingsDoc : Doc := ⟨some [], some [], some ""⟩

/-- C1 counterexample: on a document that cannot be opened at all,
`parse_from_pdf` returns the empty DataFrame — the very same value it
returns for a readable document with no holdings, so a wrong password is
not surfaced as an error and is indistinguishable from "no data". -/
theorem c1_counterexample :
    parse_from_pdf inaccessibleDoc = parse_from_pdf noHoldingsDoc
      ∧ parse_from_pdf inaccessibleDoc = DF.emptyDF := by
  constructor <;> rfl

/-- C1 (amended): when the document cannot be opened (missing or wrong
password, unreadable file), every strategy catches the exception and
returns `None`, and `parse_from_pdf` returns the empty DataFrame —
identical to the "no data" result; no `DocumentAccessError` reaches the
caller. -/
theorem c1_amended (d : Doc) (h1 : d.plumberPages = none)
    (h2 : d.tabulaTables = none) (h3 : d.pypdfText = none) :
    parse_from_pdf d = DF.emptyDF := by
  obtain ⟨p, t, y⟩ := d
  cases h1; cases h2; cases h3
  rfl

/-- C1 witness: the amended theorem at the concrete inaccessible document. -/
theorem c1_amended_witness : parse_from_pdf ⟨none, none, none⟩ = DF.emptyDF :=
  c1_amended ⟨none, none, none⟩ rfl rfl rfl

/-! ## Claim C3 — fixed strategy order, halt at first nonempty -/

/-- C3: the controller of `parse_from_pdf` refines the spec's one — the
strategies pdfplumber, tabula, PyPDF2 are consulted in that order, the
result is the first nonempty strategy result (the last strategy's value
when all are empty), a strategy is attempted exactly when every
higher-priority one produced no rows, and when every strategy comes back
empty the final result is an empty DataFrame, not an error. -/
theorem c3_controller (d : Doc) :
    parse_from_pdf d =
      specFirstNonEmpty [parseWithPdfplumber d, parseWithTabula d, parseWithPypdf2 d]
    ∧ attemptedStrategies d =
      [Strat.plumber, Strat.tabula, Strat.pypdf].take
        (specAttemptCount [parseWithPdfplumber d, parseWithTabula d, parseWithPypdf2 d])
    ∧ ((emptyOpt (parseWithPdfplumber d) && emptyOpt (parseWithTabula d)
          && emptyOpt (parseWithPypdf2 d)) = true →
        (parse_from_pdf d).isEmptyDF = true) := by
  refine ⟨?_, ?_, ?_⟩
  · unfold parse_from_pdf specFirstNonEmpty
    cases h1 : emptyOpt (parseWithPdfplumber d) with
    | false =>
      simp only [h1, if_false, Bool.false_eq_true]
      cases h : parseWithPdfplumber d with
      | none => simp [emptyOpt, h] at h1
      | some df => simp [h, emptyOpt, h1] at h1 ⊢
    | true =>
      simp only [h1, if_true]
      cases h2 : emptyOpt (parseWithTabula d) with
      | false =>
        simp only [h2, if_false, Bool.false_eq_true, specFirstNonEmpty]
        cases h : parseWithTabula d with
        | none => simp [emptyOpt, h] at h2
        | some df => simp [h]
      | true =>
        simp only [h2, if_true, specFirstNonEmpty]
        cases h : parseWithPypdf2 d with
        | none => simp [h]
        | some df => simp [h]
  · unfold attemptedStrategies
    cases h1 : emptyOpt (parseWithPdfplumber d) with
    | false => simp [h1, specAttemptCount]
    | true =>
      cases h2 : emptyOpt (parseWithTabula d) with
      | false => simp [h1, h2, specAttemptCount]
      | true => simp [h1, h2, specAttemptCount]
  · intro h
    simp only [Bool.and_eq_true] at h
    obtain ⟨⟨h1, h2⟩, h3⟩ := h
    unfold parse_from_pdf
    simp only [h1, h2, if_true]
    cases h : parseWithPypdf2 d with
    | none => rfl
    | some df => simpa [emptyOpt, h] using h3

/-- C3 witness: on the document no backend can read, all three strategies
are attempted and the result is empty. -/
theorem c3_controller_witness :
    (parse_from_pdf ⟨none, none, none⟩).isEmptyDF = true :=
  (c3_controller ⟨none, none, none⟩).2.2 (by decide)

/-! ## Claim C8 — overall return percentage and the zero-investment guard -/

/-- C8: whenever `get_summary_statistics` returns a summary, the overall
return percentage is profit/loss divided by investment times 100 when the
investment total is strictly positive, and is 0 (with no division
performed) when the investment total is 0. -/
theorem c8_return_percentage (df : DF) (s : Summary)
    (h : get_summary_statistics df = some s) :
    (s.total_investment = 0 → s.overall_return_percentage = 0)
    ∧ (0 < s.total_investment →
        ∃ pl, s.total_profit_loss = some pl
          ∧ s.overall_return_percentage = pl / s.total_investment * 100) := by
  unfold get_summary_statistics at h
  by_cases he : df.isEmptyDF = true
  · simp [he] at h
  · simp only [he, Bool.false_eq_true, if_false] at h
    cases hinv : totalOf df
        (fun c => subStr "invested" (lowerStr c) || subStr "cost" (lowerStr c)) with
    | none => rw [hinv] at h; exact absurd h (by simp)
    | some inv =>
      rw [hinv] at h
      by_cases hpos : 0 < inv
      · cases hpl : totalOf df
            (fun c => subStr "profit" (lowerStr c) && !subStr "%" (lowerStr c)) with
        | none => simp [hpos, hpl] at h
        | some plq =>
          simp only [hpos, if_true, hpl] at h
          injection h with h
          subst h
          refine ⟨fun h0 => ?_, fun _ => ⟨plq, rfl, rfl⟩⟩
          exact absurd hpos (by rw [show inv = 0 from h0]; exact lt_irrefl 0)
      · simp only [hpos, if_false] at h
        injection h with h
        subst h
        exact ⟨fun _ => rfl, fun hp => absurd hp hpos⟩

/-- A two-column frame with numeric totals (investment 100, profit 50). -/
def dfPos : DF := ⟨["Cost", "Profit/Loss"], [[Cell.num 100 0, Cell.num 50 0]]⟩

/-- The summary the source computes for `dfPos`. -/
def sumPos : Summary := ⟨1, some 0, 100, some 50, 50⟩

/-- C8 witness: on `dfPos` the percentage is 50 / 100 × 100 = 50. -/
theorem c8_return_percentage_witness :
    ∃ pl, sumPos.total_profit_loss = some pl
      ∧ sumPos.overall_return_percentage = pl / sumPos.total_investment * 100 := by
  have h : get_summary_statistics dfPos = some sumPos := by
    have h1 : findCol (fun c => subStr "value" (lowerStr c) || subStr "valuation" (lowerStr c))
        dfPos.cols = none := by decide
    have h2 : findCol (fun c => subStr "invested" (lowerStr c) || subStr "cost" (lowerStr c))
        dfPos.cols = some "Cost" := by decide
    have h3 : findCol (fun c => subStr "profit" (lowerStr c) && !subStr "%" (lowerStr c))
        dfPos.cols = some "Profit/Loss" := by decide
    have h4 : dfPos.cols.findIdx? (fun c => c = "Cost") = some 0 := by decide
    have h5 : dfPos.cols.findIdx? (fun c => c = "Profit/Loss") = some 1 := by decide
    unfold get_summary_statistics totalOf colSumQ
    rw [h1, h2, h3]
    dsimp only
    rw [h4, h5]
    norm_num [dfPos, sumPos, DF.isEmptyDF, cellQ, isNumOrNa, Summary.mk.injEq]
  exact (c8_return_percentage dfPos sumPos h).2 (by norm_num [sumPos])

/-! ## Claim C10 — negative investment totals also yield 0 -/

/-- C10: the division producing the overall return percentage is guarded by
a strictly-positive test, so a negative investment total (not only zero)
yields percentage 0 and the branch cannot raise. -/
theorem c10_negative_investment (df : DF) (s : Summary)
    (h : get_summary_statistics df = some s)
    (hneg : s.total_investment < 0) :
    s.overall_return_percentage = 0 := by
  unfold get_summary_statistics at h
  by_cases he : df.isEmptyDF = true
  · simp [he] at h
  · simp only [he, Bool.false_eq_true, if_false] at h
    cases hinv : totalOf df
        (fun c => subStr "invested" (lowerStr c) || subStr "cost" (lowerStr c)) with
    | none => rw [hinv] at h; exact absurd h (by simp)
    | some inv =>
      rw [hinv] at h
      by_cases hpos : 0 < inv
      · cases hpl : totalOf df
            (fun c => subStr "profit" (lowerStr c) && !subStr "%" (lowerStr c)) with
        | none => simp [hpos, hpl] at h
        | some plq =>
          simp only [hpos, if_true, hpl] at h
          injection h with h
          subst h
          exact absurd (hpos.trans (show inv < 0 from hneg)) (lt_irrefl 0)
      · simp only [hpos, if_false] at h
        injection h with h
        subst h
        rfl

/-- A one-column frame whose investment total is negative. -/
def dfNeg : DF := ⟨["Cost"], [[Cell.num (-5) 0]]⟩

/-- The summary the source computes for `dfNeg`. -/
def sumNeg : Summary := ⟨1, some 0, -5, some 0, 0⟩

/-- C10 witness: a negative total investment yields percentage 0. -/
theorem c10_negative_investment_witness : sumNeg.overall_return_percentage = 0 := by
  have h : get_summary_statistics dfNeg = some sumNeg := by
    have h1 : findCol (fun c => subStr "value" (lowerStr c) || subStr "valuation" (lowerStr c))
        dfNeg.cols = none := by decide
    have h2 : findCol (fun c => subStr "invested" (lowerStr c) || subStr "cost" (lowerStr c))
        dfNeg.cols = some "Cost" := by decide
    have h3 : findCol (fun c => subStr "profit" (lowerStr c) && !subStr "%" (lowerStr c))
        dfNeg.cols = none := by decide
    have h4 : dfNeg.cols.findIdx? (fun c => c = "Cost") = some 0 := by decide
    unfold get_summary_statistics totalOf colSumQ
    rw [h1, h2, h3]
    dsimp only
    rw [h4]
    norm_num [dfNeg, sumNeg, DF.isEmptyDF, cellQ, isNumOrNa, Summary.mk.injEq]
  exact c10_negative_investment dfNeg sumNeg h (by norm_num [sumNeg])

/-! ## Claim C6 — what qualifies a line as a data row -/

/-- The page text of the C6 counterexample: after the section marker and a
header line, a line whose only connection to an identifier is the substring
`INF` inside the word `RAINFALL`. -/
def rainLines : List String :=
  ["MUTUAL FUND UNITS HELD AS ON 30-SEP-2025",
   "Scheme  ISIN  Folio  Units  NAV",
   "RAINFALL DATA  AA  BB  CC  DD"]

/-- C6 counterexample: the pdfplumber line scan accepts the `RAINFALL` line
as a data row although none of its fields is an ISIN-pattern token (two
letters followed by ten more alphanumerics) or an ARN-pattern token — the
code only tests the substrings `INF` / `ARN-`, so the "only if it contains
an identifier token" claim fails. -/
theorem c6_counterexample :
    (plumberTextPage PState.init rainLines).1.data = [["RAINFALL DATA", "AA", "BB", "CC", "DD"]]
    ∧ (["RAINFALL DATA", "AA", "BB", "CC", "DD"] : List String).all
        (fun t => !specIsinToken t && !specArnToken t) = true := by
  constructor
  · decide
  · decide

/-- C6 (amended): while in the holdings section with a resolved header (and
no section marker on the line), a line is accepted exactly when it contains
the substring `INF` or the substring `ARN-` — a weaker test than the claimed
ISIN/ARN token patterns — and its segmentation has at least five fields;
rows with fewer than five fields are discarded, and the header is never
re-resolved. -/
theorem c6_amended (st : PState) (inSec : Bool) (line : String)
    (hf : st.failed = false) (hsec : inSec = true) (hh : st.headers ≠ [])
    (hm : subStr sectionMarker line = false) :
    (plumberLineStep st inSec line).1.data =
      (if (subStr "INF" line || subStr "ARN-" line) = true
          ∧ 5 ≤ (parse_data_row line).length
        then st.data ++ [parse_data_row line] else st.data)
    ∧ (plumberLineStep st inSec line).1.headers = st.headers := by
  have hne : st.headers.isEmpty = false := by
    cases hhs : st.headers with
    | nil => exact absurd hhs hh
    | cons a l => rfl
  unfold plumberLineStep
  rw [hf, hsec, hm, hne]
  by_cases hd : (subStr "INF" line || subStr "ARN-" line) = true
  · rw [hd]
    by_cases hl : 5 ≤ (parse_data_row line).length
    · simp [hl]
    · simp [hl]
  · simp only [Bool.not_eq_true] at hd
    simp [hd]

/-- A data line with exactly five fields, all identifier or numeric. -/
def exDataLine : String := "INF846K01EW2  12345678  1234.567  45.12  50000.00"

/-- C6 witness: with a resolved header, the five-field `INF` line of the
spec's scenario is appended as a data row. -/
theorem c6_amended_witness :
    (plumberLineStep ⟨["H"], [], false⟩ true exDataLine).1.data = [parse_data_row exDataLine] := by
  rw [(c6_amended ⟨["H"], [], false⟩ true exDataLine rfl rfl (by decide) (by decide)).1]
  decide

/-! ## Claim C7 — field merging on over-long rows -/

/-- The merging loop partitions the incoming fields into consecutive
groups: every ISIN-shaped or numeric token forms a group of its own, and
maximal runs of other tokens are joined by single spaces; nothing is
dropped or reordered. -/
theorem mergeGo_spec (fields : List String) : ∀ cur : List String,
    ∃ gss : List (List String),
      gss.flatten = cur ++ fields
      ∧ mergeGo cur fields = gss.map joinSp
      ∧ ∀ f ∈ fields, (reIsinLike f || reNumericLike f) = true → [f] ∈ gss := by
  induction fields with
  | nil =>
    intro cur
    cases hc : cur with
    | nil => exact ⟨[], by simp, by simp [mergeGo, joinSp], by simp⟩
    | cons a l =>
      refine ⟨[a :: l], by simp, ?_, by simp⟩
      simp [mergeGo]
  | cons f fs ih =>
    intro cur
    by_cases hsp : (reIsinLike f || reNumericLike f) = true
    · obtain ⟨gss', h1, h2, h3⟩ := ih []
      refine ⟨(if cur.isEmpty then [] else [cur]) ++ [f] :: gss', ?_, ?_, ?_⟩
      · cases hc : cur with
        | nil => simp [h1]
        | cons a l => simp [h1]
      · unfold mergeGo
        rw [hsp]
        cases hc : cur with
        | nil => simp [h2, joinSp]
        | cons a l => simp [h2, joinSp]
      · intro g hg hgs
        rcases List.mem_cons.mp hg with rfl | hg'
        · exact List.mem_append_right _ (List.mem_cons_self _ _)
        · exact List.mem_append_right _ (List.mem_cons_of_mem _ (h3 g hg' hgs))
    · obtain ⟨gss', h1, h2, h3⟩ := ih (cur ++ [f])
      refine ⟨gss', by simpa using h1, ?_, ?_⟩
      · unfold mergeGo
        rw [if_neg hsp]
        exact h2
      · intro g hg hgs
        rcases List.mem_cons.mp hg with rfl | hg'
        · exact absurd hgs hsp
        · exact h3 g hg' hgs

/-- C7 (amended): `_parse_data_row` never drops or reorders tokens — its
output is a partition of the segmented fields into consecutive groups, each
merged field being the single-space join of its group — and every
ISIN-shaped token (`^(INF|[A-Z0-9]{10})`) and every pure-numeric token is a
group of its own.  An ARN token matches neither pattern, so it is free text
and may be absorbed into a neighbouring group (the counterexample), and the
merged row can come out shorter than five fields, in which case the caller's
five-field gate discards it. -/
theorem c7_amended (line : String) :
    ∃ gss : List (List String),
      gss.flatten = rowFields line
      ∧ parse_data_row line = gss.map joinSp
      ∧ ∀ f ∈ rowFields line, (reIsinLike f || reNumericLike f) = true → [f] ∈ gss := by
  unfold parse_data_row
  cases he : (rowFields line).isEmpty with
  | true =>
    refine ⟨[], ?_, by simp [he], by simp [List.isEmpty_iff.mp he]⟩
    simp [List.isEmpty_iff.mp he]
  | false =>
    simp only [he, Bool.false_eq_true, if_false]
    by_cases hlen : canonicalCols.length < (rowFields line).length
    · simp only [hlen, if_true]
      obtain ⟨gss, h1, h2, h3⟩ := mergeGo_spec (rowFields line) []
      exact ⟨gss, by simpa using h1, h2, h3⟩
    · simp only [hlen, if_false]
      refine ⟨(rowFields line).map (fun f => [f]), ?_, ?_, ?_⟩
      · induction rowFields line with
        | nil => rfl
        | cons a l ihl => simp [ihl]
      · rw [List.map_map]
        have hcomp : (joinSp ∘ fun f => [f]) = fun f : String => f := funext (fun f => rfl)
        simp [hcomp]
      · intro f hf _
        exact List.mem_map.mpr ⟨f, hf, rfl⟩

/-- A fourteen-field data line in which the ARN token sits next to free
text. -/
def exLine14 : String :=
  "Axis  ARN-123  INF846K01EW2  1  2  3  4  5  6  7  8  9  10  11"

/-- C7 counterexample: with more fields than canonical columns, the merge
treats the ARN-pattern token as free text and absorbs it into the adjacent
scheme-name group — the output has no `ARN-123` field, refuting "keeps
every identifier-shaped token (ISIN/ARN) as its own field". -/
theorem c7_counterexample :
    parse_data_row exLine14 =
      ["Axis ARN-123", "INF846K01EW2", "1", "2", "3", "4", "5", "6", "7", "8", "9", "10", "11"]
    ∧ specArnToken "ARN-123" = true
    ∧ "ARN-123" ∈ rowFields exLine14
    ∧ "ARN-123" ∉ parse_data_row exLine14 := by
  refine ⟨by decide, by decide, by decide, by decide⟩

/-! ## Claim C2 — header resolution of "Scheme" and "ISIN" -/

/-- C2 counterexample: in the header line `"ISIN  Scheme"` the token `ISIN`
matches the dictionary entry `isin` (first-match-wins) and `Scheme` matches
`scheme`, yet the assigned canonical labels are positional —
`self.columns[len(clean_headers)]` — so `ISIN` receives the scheme-name
label `"Scheme Name"` and `Scheme` receives `"ISIN"`: the canonical name is
not determined by the dictionary entry that matched. -/
theorem c2_counterexample :
    extract_columns "ISIN  Scheme" = some ["Scheme Name", "ISIN"]
    ∧ firstMatchEntry "isin" = some "isin"
    ∧ firstMatchEntry "scheme" = some "scheme" := by
  refine ⟨by decide, by decide, by decide⟩

/-- A character neither whitespace nor a hard separator. -/
def isPlainCh (c : Char) : Bool := !isWsCh c && !isHardSep c

/-- One plain character is simply accumulated by the separator scanner. -/
theorem splitGo_cons_plain (c : Char) (acc rest : List Char)
    (hch : isHardSep c = false) (hcsp : ¬c = ' ') (hne : rest ≠ []) :
    splitGo false acc (c :: rest) = splitGo false (c :: acc) rest := by
  cases rest with
  | nil => exact absurd rfl hne
  | cons d ds =>
    simp only [splitGo]
    rw [if_neg (show ¬(isHardSep c = true) by simp [hch]), if_neg hcsp]

/-- Walking the separator scanner through plain characters only accumulates
them. -/
theorem splitGo_plain (a : List Char) : ∀ (acc cs : List Char),
    a.all isPlainCh = true → cs ≠ [] →
    splitGo false acc (a ++ cs) = splitGo false (a.reverse ++ acc) cs := by
  induction a with
  | nil => intro acc cs _ _; simp
  | cons c cs0 ih =>
    intro acc cs hall hne
    have hc : isPlainCh c = true := List.all_eq_true.mp hall c (List.mem_cons_self _ _)
    have hrest : cs0.all isPlainCh = true := by
      apply List.all_eq_true.mpr
      intro x hx
      exact List.all_eq_true.mp hall x (List.mem_cons_of_mem _ hx)
    have hcw : isWsCh c = false := by
      cases hw : isWsCh c with
      | false => rfl
      | true => simp [isPlainCh, hw] at hc
    have hch : isHardSep c = false := by
      cases hw : isHardSep c with
      | false => rfl
      | true => simp [isPlainCh, hw] at hc
    have hcsp : ¬c = ' ' := by
      intro hcs
      rw [hcs] at hcw
      simp [isWsCh] at hcw
    have hne2 : cs0 ++ cs ≠ [] := by
      intro hnil
      exact hne (List.append_eq_nil.mp hnil).2
    rw [List.cons_append, splitGo_cons_plain c acc (cs0 ++ cs) hch hcsp hne2,
      ih (c :: acc) cs hrest hne]
    simp

/-- Stripping is the identity on a string with non-whitespace first and
last characters. -/
theorem stripChars_id (c d : Char) (l : List Char)
    (hc : isWsCh c = false) (hd : isWsCh d = false) :
    stripChars (c :: (l ++ [d])) = c :: (l ++ [d]) := by
  unfold stripChars
  rw [List.dropWhile_cons, if_neg (by simp [hc])]
  rw [show (c :: (l ++ [d])).reverse = d :: (l.reverse ++ [c]) by simp]
  rw [List.dropWhile_cons, if_neg (by simp [hd])]
  simp

/-- Inside a separator run the scanner skips any further spaces. -/
theorem splitGo_skip (k : Nat) (acc cs : List Char) :
    splitGo true acc (List.replicate k ' ' ++ cs) = splitGo true acc cs := by
  induction k with
  | zero => rfl
  | succ m ih =>
    rw [List.replicate_succ, List.cons_append]
    simp only [splitGo]
    rw [if_pos (show isWsCh ' ' = true from rfl)]
    exact ih

/-- The header family of the amended C2 claim: `Scheme`, then a run of
`n + 2` spaces (any width at least two), then `ISIN`. -/
def schemeIsinHeader (n : Nat) : String :=
  "Scheme" ++ String.mk (List.replicate (n + 2) ' ') ++ "ISIN"

/-- Tokenizing the parametric header always yields the two tokens,
whatever the run width. -/
theorem pySplit_schemeIsin (n : Nat) :
    splitGo false [] ("Scheme".toList ++ (List.replicate (n + 2) ' ' ++ "ISIN".toList))
      = ["Scheme", "ISIN"] := by
  have hne : List.replicate (n + 2) ' ' ++ "ISIN".toList ≠ [] := by
    rw [List.replicate_succ]
    simp
  rw [splitGo_plain "Scheme".toList [] _ (by decide) hne]
  rw [List.replicate_succ, List.replicate_succ, List.cons_append, List.cons_append]
  simp only [splitGo]
  rw [if_neg (show ¬(isHardSep ' ' = true) by decide), if_pos trivial,
    if_pos (show isWsCh ' ' = true from rfl), splitGo_skip]
  decide

/-- C2 (amended): header resolution is deterministic and independent of the
width of the whitespace run between tokens, and each token is recognized by
the first dictionary entry a pattern of which matches it — but the canonical
label a recognized token receives is positional
(`self.columns[len(clean_headers)]`), not determined by the matching entry.
In particular a header whose first recognized token is `Scheme` and second
is `ISIN` resolves to `["Scheme Name", "ISIN"]` for every separator
width ≥ 2. -/
theorem c2_amended (n : Nat) :
    extract_columns (schemeIsinHeader n) = some ["Scheme Name", "ISIN"] := by
  have hdata : (schemeIsinHeader n).toList
      = "Scheme".toList ++ (List.replicate (n + 2) ' ' ++ "ISIN".toList) := by
    show ("Scheme" ++ String.mk (List.replicate (n + 2) ' ') ++ "ISIN").data
        = "Scheme".data ++ (List.replicate (n + 2) ' ' ++ "ISIN".data)
    rw [String.data_append, String.data_append]
    simp
  have hform : "Scheme".toList ++ (List.replicate (n + 2) ' ' ++ "ISIN".toList)
      = 'S' :: ((['c','h','e','m','e'] ++ (List.replicate (n + 2) ' ' ++ ['I','S','I'])) ++ ['N']) := by
    rw [show "Scheme".toList = ['S','c','h','e','m','e'] from rfl,
      show "ISIN".toList = ['I','S','I','N'] from rfl]
    simp
  have hstrip : pyStrip (schemeIsinHeader n)
      = String.mk ("Scheme".toList ++ (List.replicate (n + 2) ' ' ++ "ISIN".toList)) := by
    unfold pyStrip
    rw [hdata, hform, stripChars_id _ _ _ (by decide) (by decide), ← hform]
  have htok : pySplitSeps (pyStrip (schemeIsinHeader n)) = ["Scheme", "ISIN"] := by
    rw [hstrip]
    exact pySplit_schemeIsin n
  unfold extract_columns
  rw [htok]
  decide

/-- C2 witness: the amended theorem at separator width 5. -/
theorem c2_amended_witness :
    extract_columns (schemeIsinHeader 3) = some ["Scheme Name", "ISIN"] :=
  c2_amended 3

/-- C7 witness: the amended structure theorem at the concrete fourteen-field
line. -/
theorem c7_amended_witness :
    ∃ gss : List (List String),
      gss.flatten = rowFields exLine14
      ∧ parse_data_row exLine14 = gss.map joinSp
      ∧ ∀ f ∈ rowFields exLine14, (reIsinLike f || reNumericLike f) = true → [f] ∈ gss :=
  c7_amended exLine14

/-! ## Claim C4 — which rows the noise filter retains -/

/-- Two five-column rows: one whose only link to an identifier is the word
`INFO`, one whose only identifier is a genuine ARN token. -/
def dfArn : DF :=
  ⟨["a", "b", "c", "d", "e"],
   [[.s "INFO", .s "x", .s "y", .s "z", .s "w"],
    [.s "ARN-123", .s "x", .s "y", .s "z", .s "w"]]⟩

/-- C4 counterexample: normalization keeps the `INFO` row — none of whose
cells holds an ISIN-pattern or ARN-pattern token — and drops the row whose
only identifier is the ARN token, because the filter tests the substring
`INF` only.  Both directions of the claimed invariant fail. -/
theorem c4_counterexample :
    clean_dataframe dfArn
      = some ⟨["a", "b", "c", "d", "e"], [[.s "INFO", .s "x", .s "y", .s "z", .s "w"]]⟩
    ∧ specArnToken "ARN-123" = true
    ∧ ([(.s "INFO" : Cell), .s "x", .s "y", .s "z", .s "w"].all
        (fun c => !specIsinToken (strTok c) && !specArnToken (strTok c))) = true := by
  refine ⟨by decide, by decide, by decide⟩

/-- C4 (amended): every row of a normalized table is the per-column
transformation of a retained source row, and every retained source row has
some cell whose text contains the substring `INF` — not necessarily an
ISIN-pattern token, and an ARN-pattern token alone does not retain a row. -/
theorem c4_amended (df out : DF) (h : clean_dataframe df = some out) :
    out.rows = (preTable df).rows.map (fun r => (out.cols.zip r).map (fun p => colFix p.1 p.2))
    ∧ ∀ r ∈ (preTable df).rows, rowHasINF r = true := by
  unfold clean_dataframe at h
  by_cases he : df.isEmptyDF = true
  · simp [he] at h
  · simp only [he, Bool.false_eq_true, if_false] at h
    cases hr : renameCols (preTable df).cols with
    | none => rw [hr] at h; exact absurd h (by simp)
    | some cs =>
      rw [hr] at h
      injection h with h
      subst h
      refine ⟨rfl, ?_⟩
      intro r hrr
      have hmem : r ∈ ((dropNaCols (dropNaRows (stageAB df))).rows.filter rowHasINF) := hrr
      exact List.of_mem_filter hmem

/-- The normalized form of `dfArn`. -/
def dfArnOut : DF :=
  ⟨["a", "b", "c", "d", "e"], [[.s "INFO", .s "x", .s "y", .s "z", .s "w"]]⟩

/-- C4 witness: the amended row correspondence at the concrete table. -/
theorem c4_amended_witness :
    dfArnOut.rows
      = (preTable dfArn).rows.map (fun r => (dfArnOut.cols.zip r).map (fun p => colFix p.1 p.2)) :=
  (c4_amended dfArn dfArnOut (by decide)).1

/-! ## Claim C9 — the column set after normalization -/

/-- A ten-column frame (three canonical columns short). -/
def df10 : DF :=
  ⟨["c1", "c2", "c3", "c4", "c5", "c6", "c7", "c8", "c9", "c10"],
   [[.s "INF1", .s "a", .s "b", .s "c", .s "d", .s "e", .s "f", .s "g", .s "h", .s "i"]]⟩

/-- C9 counterexample: with ten surviving columns the rename assigns only
the first ten canonical labels, so the column set is a strict subset of the
canonical thirteen-field domain — `Commission`, `Profit/Loss` and
`Profit/Loss %` are absent. -/
theorem c9_counterexample :
    clean_dataframe df10
      = some ⟨canonicalCols.take 10,
          [[.s "INF1", .s "a", .s "b", .s "c", .na, .na, .na, .na, .na, .na]]⟩
    ∧ canonicalCols.take 10 ≠ canonicalCols
    ∧ "Profit/Loss" ∉ canonicalCols.take 10 := by
  refine ⟨by decide, by decide, by decide⟩

/-- C9 (amended): the rename runs only when at least ten columns survive;
it then assigns the first `n` canonical labels (all thirteen exactly when
`n = 13`, and more than thirteen columns abort the strategy), while fewer
than ten surviving columns keep their original labels. -/
theorem c9_amended (df out : DF) (h : clean_dataframe df = some out) :
    ((preTable df).cols.length < 10 → out.cols = (preTable df).cols)
    ∧ (10 ≤ (preTable df).cols.length →
        (preTable df).cols.length ≤ canonicalCols.length
        ∧ out.cols = canonicalCols.take (preTable df).cols.length) := by
  unfold clean_dataframe at h
  by_cases he : df.isEmptyDF = true
  · simp [he] at h
  · simp only [he, Bool.false_eq_true, if_false] at h
    cases hr : renameCols (preTable df).cols with
    | none => rw [hr] at h; exact absurd h (by simp)
    | some cs =>
      rw [hr] at h
      injection h with h
      subst h
      unfold renameCols at hr
      by_cases h10 : 10 ≤ (preTable df).cols.length
      · rw [if_pos h10] at hr
        by_cases h13 : (preTable df).cols.length ≤ canonicalCols.length
        · rw [if_pos h13] at hr
          injection hr with hr
          subst hr
          exact ⟨fun hlt => absurd h10 (not_le.mpr hlt), fun _ => ⟨h13, rfl⟩⟩
        · rw [if_neg h13] at hr
          exact absurd hr (by simp)
      · rw [if_neg h10] at hr
        injection hr with hr
        subst hr
        exact ⟨fun _ => rfl, fun hge => absurd hge h10⟩

/-- The normalized form of `df10`. -/
def df10Out : DF :=
  ⟨canonicalCols.take 10,
   [[.s "INF1", .s "a", .s "b", .s "c", .na, .na, .na, .na, .na, .na]]⟩

/-- C9 witness: the amended rename rule at the concrete ten-column table. -/
theorem c9_amended_witness :
    (preTable df10).cols.length ≤ canonicalCols.length
      ∧ df10Out.cols = canonicalCols.take (preTable df10).cols.length :=
  (c9_amended df10 df10Out (by decide)).2 (by decide)

/-! ## Claim C5 — is normalization idempotent? -/

/-- What a second `_clean_dataframe` pass does to one cell of an
already-normalized table: text coercion and absence markers, then the
per-column fix of stages (e)–(f). -/
def cellRound (name : String) (c : Cell) : Cell := colFix name (abCell c)

/-- The rename step leaves the labels unchanged. -/
def renameIdentity (cols : List String) : Bool := renameCols cols == some cols

/-- The table is fixed by a second normalization pass: nonempty and
rectangular, every cell is a fixed point of its column's second-pass cell
transformation, every row keeps a cell whose text contains `INF`, no column
goes all-missing, and the rename is the identity on the labels. -/
def secondPassFixed (df : DF) : Bool :=
  !df.rows.isEmpty && !df.cols.isEmpty
  && df.rows.all (fun r => r.length == df.cols.length)
  && df.rows.all (fun r => (df.cols.zip r).all (fun p => cellRound p.1 p.2 == p.2))
  && df.rows.all (fun r => r.any (fun c => subStr "INF" (strTok (abCell c))))
  && (List.range df.cols.length).all
      (fun j => df.rows.any (fun r => !(abCell (r.getD j Cell.na) == Cell.na)))
  && renameIdentity df.cols

/-- A cell whose text shows `INF` is not missing. -/
theorem subStr_INF_ne_na (c : Cell) (h : subStr "INF" (strTok c) = true) : c ≠ Cell.na := by
  intro hna
  rw [hna] at h
  exact absurd h (by decide)

/-- `getD` after the text-coercion map (the coercion fixes the default
`Cell.na`). -/
theorem getD_map_abCell (r : List Cell) :
    ∀ j, (r.map abCell).getD j Cell.na = abCell (r.getD j Cell.na) := by
  induction r with
  | nil => intro j; cases j <;> rfl
  | cons a l ih =>
    intro j
    cases j with
    | zero => rfl
    | succ m => exact ih m

/-- Reading every position of a list back in order reproduces the list. -/
theorem rangeGetD (l : List Cell) (d : Cell) :
    (List.range l.length).map (fun j => l.getD j d) = l := by
  induction l with
  | nil => rfl
  | cons a t ih =>
    rw [List.length_cons, List.range_succ_eq_map, List.map_cons, List.map_map]
    exact congrArg (a :: ·) ih

/-- Reading every position of a label list back in order reproduces it. -/
theorem rangeGetDStr (l : List String) (d : String) :
    (List.range l.length).map (fun j => l.getD j d) = l := by
  induction l with
  | nil => rfl
  | cons a t ih =>
    rw [List.length_cons, List.range_succ_eq_map, List.map_cons, List.map_map]
    exact congrArg (a :: ·) ih

/-- C5 (amended): normalization is not idempotent in general (see the
counterexample: a parsed currency value like 50000.0 re-renders without two
decimals and is lost by the second pass); it is a no-op exactly on tables
every cell of which is fixed by the second-pass cell transformation of its
column and which pass the structural filters unchanged, as captured by
`secondPassFixed`. -/
theorem c5_amended (df : DF) (h : secondPassFixed df = true) :
    clean_dataframe df = some df := by
  obtain ⟨cols, rows⟩ := df
  simp only [secondPassFixed, Bool.and_eq_true] at h
  obtain ⟨⟨⟨⟨⟨⟨h1, h2⟩, h3⟩, h4⟩, h5⟩, h6⟩, h7⟩ := h
  have hlen : ∀ r ∈ rows, r.length = cols.length := by
    intro r hr
    exact eq_of_beq (List.all_eq_true.mp h3 r hr)
  have hB : dropNaRows (stageAB ⟨cols, rows⟩) = stageAB ⟨cols, rows⟩ := by
    unfold dropNaRows stageAB
    refine congrArg (DF.mk cols) (List.filter_eq_self.mpr ?_)
    intro r' hr'
    obtain ⟨r, hr, rfl⟩ := List.mem_map.mp hr'
    obtain ⟨c, hc, hsub⟩ := List.any_eq_true.mp (List.all_eq_true.mp h5 r hr)
    cases hall : (r.map abCell).all (fun x => decide (x = Cell.na)) with
    | false => rfl
    | true =>
      have := List.all_eq_true.mp hall (abCell c) (List.mem_map.mpr ⟨c, hc, rfl⟩)
      exact absurd (of_decide_eq_true this) (subStr_INF_ne_na _ hsub)
  have hC : dropNaCols (stageAB ⟨cols, rows⟩) = stageAB ⟨cols, rows⟩ := by
    unfold dropNaCols stageAB
    have hkeep : (List.range cols.length).filter
        (fun j => (rows.map (fun r => r.map abCell)).any
          (fun r => !(r.getD j Cell.na = Cell.na))) = List.range cols.length := by
      refine List.filter_eq_self.mpr ?_
      intro j hj
      obtain ⟨r, hr, hcond⟩ := List.any_eq_true.mp (List.all_eq_true.mp h6 j hj)
      refine List.any_eq_true.mpr ⟨r.map abCell, List.mem_map.mpr ⟨r, hr, rfl⟩, ?_⟩
      rw [getD_map_abCell]
      exact hcond
    dsimp only
    rw [hkeep, rangeGetDStr]
    refine congrArg (DF.mk cols) ?_
    have hrows : ∀ r' ∈ rows.map (fun r => r.map abCell),
        (List.range cols.length).map (fun j => r'.getD j Cell.na) = r' := by
      intro r' hr'
      obtain ⟨r, hr, rfl⟩ := List.mem_map.mp hr'
      have hl : (r.map abCell).length = cols.length := by
        rw [List.length_map]
        exact hlen r hr
      rw [← hl]
      exact rangeGetD _ _
    rw [List.map_congr_left hrows]
    exact List.map_id' _
  have hD : filterINF (stageAB ⟨cols, rows⟩) = stageAB ⟨cols, rows⟩ := by
    unfold filterINF stageAB
    refine congrArg (DF.mk cols) (List.filter_eq_self.mpr ?_)
    intro r' hr'
    obtain ⟨r, hr, rfl⟩ := List.mem_map.mp hr'
    unfold rowHasINF
    rw [List.any_map]
    exact List.all_eq_true.mp h5 r hr
  have hpre : preTable ⟨cols, rows⟩ = stageAB ⟨cols, rows⟩ := by
    unfold preTable
    rw [hB, hC, hD]
  have hren : renameCols cols = some cols := eq_of_beq h7
  have hpost : postTable ⟨cols, rows.map (fun r => r.map abCell)⟩ = ⟨cols, rows⟩ := by
    unfold postTable
    dsimp only
    refine congrArg (DF.mk cols) ?_
    rw [List.map_map]
    have hrows : ∀ r ∈ rows,
        ((fun r' => (cols.zip r').map (fun p => colFix p.1 p.2)) ∘ fun r => r.map abCell) r = r := by
      intro r hr
      show (cols.zip (r.map abCell)).map (fun p => colFix p.1 p.2) = r
      rw [List.zip_map_right, List.map_map]
      have hfun : ((fun p : String × Cell => colFix p.1 p.2) ∘ Prod.map id abCell)
          = fun p : String × Cell => cellRound p.1 p.2 := by
        funext p
        cases p
        rfl
      rw [hfun]
      have heach : ∀ p ∈ cols.zip r, cellRound p.1 p.2 = p.2 := by
        intro p hp
        exact eq_of_beq (List.all_eq_true.mp (List.all_eq_true.mp h4 r hr) p hp)
      rw [List.map_congr_left heach]
      exact List.map_snd_zip cols r (le_of_eq (hlen r hr))
    rw [List.map_congr_left hrows]
    exact List.map_id' _
  have hemp : (DF.mk cols rows).isEmptyDF = false := by
    unfold DF.isEmptyDF
    rw [Bool.not_eq_true'] at h1 h2
    dsimp only
    rw [h1, h2]
    rfl
  unfold clean_dataframe
  rw [hemp]
  simp only [Bool.false_eq_true, if_false]
  rw [hpre]
  dsimp only [stageAB]
  rw [hren]
  exact congrArg some hpost

/-- A fully normalized table whose currency cells all re-render with two
decimals (cents nonzero), so that every cell survives a second pass. -/
def exFixed : DF :=
  ⟨canonicalCols,
   [[.s "Axis Bluechip Fund", .s "INF846K01EW2", .s "12345678", .s "ARN-123",
     .num 1234567 3, .num 4512 2, .num 5000012 2, .num 5575025 2, .num 175 2,
     .num 75 2, .num 10055 2, .num 575025 2, .num 1155 2]]⟩

/-- C5 witness: the amended theorem at `exFixed` — a second normalization
pass really is a no-op there. -/
theorem c5_amended_witness :
    secondPassFixed exFixed = true ∧ clean_dataframe exFixed = some exFixed :=
  ⟨by decide, c5_amended exFixed (by decide)⟩

/-- A raw thirteen-column extraction whose money fields carry whole-rupee
amounts (`50000.00`, `55750.00`, `100.00`, `5750.00`). -/
def exDF0 : DF :=
  ⟨["h1", "h2", "h3", "h4", "h5", "h6", "h7", "h8", "h9", "h10", "h11", "h12", "h13"],
   [[.s "Axis  Bluechip Fund", .s "INF846K01EW2", .s "12345678", .s "ARN-123",
     .s "1234.567", .s "45.12", .s "50000.00", .s "55750.00", .s "1.75", .s "0.75",
     .s "100.00", .s "5750.00", .s "11.5"]]⟩

/-- The normalized form of `exDF0`: the money columns parse to the floats
50000.0, 55750.0, 100.0, 5750.0. -/
def exT1 : DF :=
  ⟨canonicalCols,
   [[.s "Axis Bluechip Fund", .s "INF846K01EW2", .s "12345678", .s "ARN-123",
     .num 1234567 3, .num 4512 2, .num 50000 0, .num 55750 0, .num 175 2,
     .num 75 2, .num 100 0, .num 5750 0, .num 115 1]]⟩

/-- What a second pass makes of `exT1`: `str(50000.0) = "50000.0"` no
longer matches the two-decimal money pattern, so every whole-rupee money
value degrades to missing. -/
def exT2 : DF :=
  ⟨canonicalCols,
   [[.s "Axis Bluechip Fund", .s "INF846K01EW2", .s "12345678", .s "ARN-123",
     .num 1234567 3, .num 4512 2, .na, .na, .num 175 2,
     .num 75 2, .na, .na, .num 115 1]]⟩

/-- C5 counterexample: `exT1` is an output of `_clean_dataframe`, yet
normalizing it again yields a different table — the Cost, Market Value,
Commission and Profit/Loss values are replaced by missing ones — so
normalization is not idempotent. -/
theorem c5_counterexample :
    clean_dataframe exDF0 = some exT1
    ∧ clean_dataframe exT1 = some exT2
    ∧ exT2 ≠ exT1 := by
  refine ⟨by decide, by decide, by decide⟩
